import Mathlib

/-!
Verification of the NPC behavior and navigation subsystem of The Stilled Hour
against its natural-language specification.

The code under scrutiny is `src/entities/npc.py` (class `NPC`), with the room
geometry constants from `src/core/config.py` (`ROOM_SIZE = (20, 10, 4)`,
unpacked everywhere as `half_w, half_l, _ = ROOM_SIZE`).

Two embeddings are used:

* `NpcQ` is a rational-valued model of the functions whose branch conditions
  are exact rational comparisons: the containment clamps
  (`_enforce_room_boundaries`, `_step`, `_enforce_position_in_room`,
  `_do_teleport`), the state transitions (`_check_state_transition`), the
  awareness update (`_update_awareness`), the obstacle memory
  (`_update_obstacle_memory` and the insertion in `_step`), teleport
  recovery (`_teleport_away`), local path chaining (`_find_path_to_player`)
  and the player-teleport event handler (`_on_player_teleported`).
* `NpcR` is a real-valued model of the functions whose branch conditions
  involve Euclidean lengths (square roots) or trigonometry: the occlusion
  test (`_is_path_obstructed`), wander direction choice
  (`_choose_new_direction`) and stuck detection (`_is_stuck` together with
  the blocked-timer fragment of `update`).

Randomness (`random.uniform`, `random.random`, `random.choice`) is passed in
as explicit oracle arguments, and the external collision world (the static
box list, the obstruction raycast) is passed in as explicit data or oracle
functions, matching the external-collaborator architecture of the spec.
-/

namespace NpcQ

/-- Room half extents: `ROOM_SIZE = (20, 10, 4)` in `src/core/config.py`;
`npc.py` unpacks this as `half_w, half_l, _ = ROOM_SIZE`. -/
def halfW : ℚ := 20

/-- Second component of `ROOM_SIZE`. -/
def halfL : ℚ := 10

/-- Constant `NPC_SPEED = 1.5` (npc.py line 28). -/
def NPC_SPEED : ℚ := 1.5

/-- Constant `NPC_SAFE_DISTANCE = 2.5` (npc.py line 30). -/
def NPC_SAFE_DISTANCE : ℚ := 2.5

/-- Constant `NPC_DETECTION_RADIUS = 20.0` (npc.py line 33). -/
def NPC_DETECTION_RADIUS : ℚ := 20

/-- Constant `NPC_FLEE_THRESHOLD = 8.0` (npc.py line 35). -/
def NPC_FLEE_THRESHOLD : ℚ := 8

/-- Constant `NPC_AWARENESS_TIME = 3.0` (npc.py line 36). -/
def NPC_AWARENESS_TIME : ℚ := 3

/-- Field `self._obstacle_memory_lifetime = 5.0` (npc.py line 71). -/
def OBSTACLE_MEMORY_LIFETIME : ℚ := 5

/-- Planar (x, y) position or velocity.  The z coordinate is passed through
unchanged by every clamp in npc.py and never constrained, so the planar
projection is the faithful carrier for the containment reasoning. -/
structure Vec2 where
  x : ℚ
  y : ℚ
deriving DecidableEq, Repr

/-- Python clamping idiom `min(max(v, lo), hi)` used throughout npc.py. -/
def pyClamp (lo hi v : ℚ) : ℚ := min (max v lo) hi

/-- Python `int()` truncation toward zero, used for obstacle-memory grid
cells (`int(test_pos.x)` etc.). -/
def pyInt (q : ℚ) : ℤ := if 0 ≤ q then ⌊q⌋ else ⌈q⌉

/-- Obstacle memory: the dict `self._obstacle_memory` from grid cell to
remaining lifetime, modelled as a partial map. -/
abbrev ObsMem := (ℤ × ℤ) → Option ℚ

/-- Dict assignment `self._obstacle_memory[(gx, gy)] = self._obstacle_memory_lifetime`
performed in `_step` when a move attempt fails (npc.py lines 1574-1577). -/
def insertObstacle (mem : ObsMem) (cell : ℤ × ℤ) : ObsMem :=
  Function.update mem cell (some OBSTACLE_MEMORY_LIFETIME)

/-- Method `_update_obstacle_memory` (npc.py lines 986-1002): every stored
lifetime is decremented by `dt` and entries whose new lifetime is `<= 0` are
removed.  (The wall-clock purge of `_box_check_cache` in the same method
touches only the box-check cache, not the obstacle memory.) -/
def update_obstacle_memory (mem : ObsMem) (dt : ℚ) : ObsMem :=
  fun cell =>
    match mem cell with
    | none => none
    | some lifetime => if lifetime - dt ≤ 0 then none else some (lifetime - dt)

/-- The movement-relevant fragment of the NPC state: position, velocity,
walk timer and obstacle memory. -/
structure MoveState where
  pos : Vec2
  vel : Vec2
  walkTimer : ℚ
  obsMem : ObsMem

/-- Method `_enforce_position_in_room` (npc.py lines 1592-1604): clamp the
position to the 60 percent safe bounds; z is returned unchanged. -/
def enforce_position_in_room (p : Vec2) : Vec2 :=
  ⟨pyClamp (-(halfW * 0.6)) (halfW * 0.6) p.x,
   pyClamp (-(halfL * 0.6)) (halfL * 0.6) p.y⟩

/-- Method `_enforce_room_boundaries` (npc.py lines 942-984): if the position
is outside the 45 percent bounds, clamp it there, invert and halve the
offending velocity components and force an early direction re-choice; the
returned flag records whether the extreme-violation emergency teleport
(`_teleport_away`) was requested.  The emergency teleport itself commits a
position through `_do_teleport`, which is a separate mutation. -/
def enforce_room_boundaries (s : MoveState) : MoveState × Bool :=
  let safeHalfW := halfW * 0.45
  let safeHalfL := halfL * 0.45
  if safeHalfW < |s.pos.x| ∨ safeHalfL < |s.pos.y| then
    let corrected : Vec2 :=
      ⟨pyClamp (-safeHalfW) safeHalfW s.pos.x,
       pyClamp (-safeHalfL) safeHalfL s.pos.y⟩
    let vx := if safeHalfW < |s.pos.x| then s.vel.x * (-0.5) else s.vel.x
    let vy := if safeHalfL < |s.pos.y| then s.vel.y * (-0.5) else s.vel.y
    let extreme := safeHalfW * 1.1 < |s.pos.x| ∨ safeHalfL * 1.1 < |s.pos.y|
    ({ s with
        pos := corrected
        vel := ⟨vx, vy⟩
        walkTimer := min s.walkTimer 0.2 },
      decide extreme)
  else (s, false)

/-- One movement step `_step` (npc.py lines 1535-1590): pre-adjust the
velocity if the proposed position would cross the 60 percent bound while the
velocity continues in that direction (invert and dampen by 0.7), integrate,
then re-clamp through `_enforce_position_in_room`.  The hit-obstacle test
`movement < 0.2 * velocity.length() * dt` compares Euclidean lengths and
only drives the velocity reversal, the obstacle-memory insertion and the
walk-timer reset, never the committed position, so its outcome enters the
model as the oracle Boolean `hitOracle`.  Position-history recording (the
displacement > 0.5 test) is modelled in `NpcR` where stuck detection
needs it. -/
def stepMove (s : MoveState) (dt : ℚ) (hitOracle : Bool) : MoveState :=
  let start := s.pos
  let proposed : Vec2 := ⟨start.x + s.vel.x * dt, start.y + s.vel.y * dt⟩
  let safeHalfW := halfW * 0.6
  let safeHalfL := halfL * 0.6
  let vx :=
    if safeHalfW < |proposed.x| ∧
        ((0 < proposed.x ∧ 0 < s.vel.x) ∨ (proposed.x < 0 ∧ s.vel.x < 0)) then
      -s.vel.x * 0.7
    else s.vel.x
  let vy :=
    if safeHalfL < |proposed.y| ∧
        ((0 < proposed.y ∧ 0 < s.vel.y) ∨ (proposed.y < 0 ∧ s.vel.y < 0)) then
      -s.vel.y * 0.7
    else s.vel.y
  let newPos := enforce_position_in_room ⟨start.x + vx * dt, start.y + vy * dt⟩
  let obsMem2 :=
    if hitOracle then insertObstacle s.obsMem (pyInt start.x, pyInt start.y) else s.obsMem
  let vel2 : Vec2 := if hitOracle then ⟨-vx, -vy⟩ else ⟨vx, vy⟩
  let walkTimer2 := if hitOracle then 0.1 else s.walkTimer
  { pos := newPos, vel := vel2, walkTimer := walkTimer2, obsMem := obsMem2 }

/-- Position committed by `_do_teleport` (npc.py lines 1852-1866): the
candidate is defensively re-clamped to the 60 percent bounds. -/
def do_teleport_pos (target : Vec2) : Vec2 :=
  ⟨pyClamp (-(halfW * 0.6)) (halfW * 0.6) target.x,
   pyClamp (-(halfL * 0.6)) (halfL * 0.6) target.y⟩

/-- Method `_do_teleport` (npc.py lines 1852-1882): commit the clamped
position, zero the velocity and the walk timer.  It also clears the position
history and the path plan, which are carried by the `NpcR` stuck model and
the path-plan model respectively. -/
def do_teleport (s : MoveState) (target : Vec2) : MoveState :=
  { pos := do_teleport_pos target, vel := ⟨0, 0⟩, walkTimer := 0, obsMem := s.obsMem }

/-- The position mutations a tick of `update` can perform, in the order the
adversary chooses: the per-tick boundary clamp, an arbitrary velocity
choice (covering `_choose_new_direction` and the stalk and flee velocity
assignments, which write `self._velocity` but not the position), a movement
step, or a teleport commit with an arbitrary target. -/
inductive PosMut where
  | boundary : PosMut
  | setVel (v : Vec2) : PosMut
  | move (dt : ℚ) (hitOracle : Bool) : PosMut
  | teleport (target : Vec2) : PosMut

/-- Apply one position mutation. -/
def applyMut (s : MoveState) : PosMut → MoveState
  | .boundary => (enforce_room_boundaries s).1
  | .setVel v => { s with vel := v }
  | .move dt hit => stepMove s dt hit
  | .teleport target => do_teleport s target

/-- One `update(dt)` tick as far as the position is concerned: `update`
always runs `_enforce_room_boundaries` first (npc.py line 806) and then
performs an adversarially chosen sequence of the mutations above. -/
def update_tick (s : MoveState) (muts : List PosMut) : MoveState :=
  muts.foldl applyMut (enforce_room_boundaries s).1

/-- The loosest containment bound used by the per-tick checks: 60 percent of
the room half extents. -/
def inSafeBounds (p : Vec2) : Prop := |p.x| ≤ halfW * 0.6 ∧ |p.y| ≤ halfL * 0.6

/-- Behavior states of the finite-state machine (npc.py line 62; the string
"teleport" listed in the comment there is never assigned). -/
inductive BState where
  | wander
  | stalk
  | flee
deriving DecidableEq, Repr

/-- Method `_check_state_transition` (npc.py lines 1135-1169), with the
distance to the player and the time delta as inputs.  Output is the new
behavior state and state timer.  Within the stalk branch the flee test is a
second independent `if`, not an `elif`: it is evaluated even when the
wander transition already fired, and `_change_behavior` then moves the
freshly set wander state on to flee. -/
def check_state_transition (st : BState) (stateTimer d awareness dt : ℚ) : BState × ℚ :=
  match st with
  | .wander =>
      if d < NPC_DETECTION_RADIUS ∧ NPC_SAFE_DISTANCE < d then (.stalk, 0)
      else (.wander, stateTimer)
  | .stalk =>
      let afterWanderCheck : BState × ℚ :=
        if d < NPC_SAFE_DISTANCE ∨ NPC_DETECTION_RADIUS * 1.5 < d then (.wander, 0)
        else (.stalk, stateTimer)
      if 0.8 < awareness ∧ d < NPC_FLEE_THRESHOLD then (.flee, 0)
      else afterWanderCheck
  | .flee =>
      let t := stateTimer + dt
      if 5.0 < t ∨ NPC_DETECTION_RADIUS < d then (.wander, 0)
      else (.flee, t)

/-- Method `_update_awareness` (npc.py lines 1122-1133): raise the awareness
by `dt / NPC_AWARENESS_TIME` clamped above at 1 while being watched, lower
it by `dt / (NPC_AWARENESS_TIME * 0.5)` clamped below at 0 otherwise. -/
def update_awareness (a dt : ℚ) (being_watched : Bool) : ℚ :=
  if being_watched then min 1.0 (a + dt / NPC_AWARENESS_TIME)
  else max 0.0 (a - dt / (NPC_AWARENESS_TIME * 0.5))

/-- Iterated awareness updates over a sequence of (being-watched, dt)
perception samples, one per tick. -/
def run_awareness (a : ℚ) : List (Bool × ℚ) → ℚ
  | [] => a
  | (w, dt) :: rest => run_awareness (update_awareness a dt w) rest

/-- Squared planar distance
`(Vec3(x, y, 0) - Vec3(px, py, 0)).length_squared()` used by
`_teleport_away` (npc.py line 1814). -/
def dist2 (a b : Vec2) : ℚ := (a.x - b.x) ^ 2 + (a.y - b.y) ^ 2

/-- Candidate loop of `_teleport_away` (npc.py lines 1804-1826) over the up
to `NPC_TELEPORT_ATTEMPTS = 30` sampled candidates, here given as the list
`cands`; `insideBox` is the (possibly cached) `_inside_any_box` query.  The
accumulator mirrors `(best_pos, best_d2)`, initially `(None, 0.0)`.  A
candidate inside a box or closer than `NPC_SAFE_DISTANCE` to the player is
rejected; an accepted candidate replaces the best when strictly farther;
the loop breaks once an accepted candidate exceeds
`(NPC_SAFE_DISTANCE * 3) ** 2`. -/
def teleport_scan (insideBox : Vec2 → Bool) (player : Vec2) :
    List Vec2 → Option Vec2 × ℚ → Option Vec2 × ℚ
  | [], acc => acc
  | c :: rest, acc =>
    if insideBox c then teleport_scan insideBox player rest acc
    else
      let d2 := dist2 c player
      if d2 < NPC_SAFE_DISTANCE ^ 2 then teleport_scan insideBox player rest acc
      else
        let acc2 := if acc.2 < d2 then (some c, d2) else acc
        if (NPC_SAFE_DISTANCE * 3) ^ 2 < d2 then acc2
        else teleport_scan insideBox player rest acc2

/-- The prefix of the candidate list actually examined by `teleport_scan`
before it returns (everything up to and including the early-stop
candidate, or the whole list). -/
def teleport_examined (insideBox : Vec2 → Bool) (player : Vec2) :
    List Vec2 → Option Vec2 × ℚ → List Vec2
  | [], _ => []
  | c :: rest, acc =>
    if insideBox c then c :: teleport_examined insideBox player rest acc
    else
      let d2 := dist2 c player
      if d2 < NPC_SAFE_DISTANCE ^ 2 then c :: teleport_examined insideBox player rest acc
      else
        let acc2 := if acc.2 < d2 then (some c, d2) else acc
        if (NPC_SAFE_DISTANCE * 3) ^ 2 < d2 then [c]
        else c :: teleport_examined insideBox player rest acc2

/-- Method `_teleport_away` (npc.py lines 1789-1850): run the candidate
scan; commit the best candidate through `_do_teleport` when one was found,
else commit the random fallback offset near the room center.  (The visual
fade `Sequence` only defers `_do_teleport` by 0.3 s; the committed position
is the same.) -/
def teleport_away (insideBox : Vec2 → Bool) (player : Vec2) (cands : List Vec2)
    (fallback : Vec2) : Vec2 :=
  match teleport_scan insideBox player cands (none, 0) with
  | (some best, _) => do_teleport_pos best
  | (none, _) => do_teleport_pos fallback

/-- Whether a teleport candidate survives the two rejection tests of
`_teleport_away`: not inside an obstacle, and at squared planar distance at
least `NPC_SAFE_DISTANCE ** 2` from the player. -/
def validCandidate (insideBox : Vec2 → Bool) (player : Vec2) (c : Vec2) : Prop :=
  insideBox c = false ∧ NPC_SAFE_DISTANCE ^ 2 ≤ dist2 c player

/-- Invariant of the `(best_pos, best_d2)` accumulator of `_teleport_away`:
before any acceptance the distance is 0, and once a best candidate is held
the stored distance is its squared distance to the player, is at least
`NPC_SAFE_DISTANCE ** 2`, and the candidate satisfies `R` (instantiated
with membership in the sampled list). -/
def TeleAccInv (player : Vec2) (R : Vec2 → Prop) (acc : Option Vec2 × ℚ) : Prop :=
  (acc.1 = none → acc.2 = 0)
    ∧ ∀ q, acc.1 = some q →
        acc.2 = dist2 q player ∧ NPC_SAFE_DISTANCE ^ 2 ≤ acc.2 ∧ R q

/-- Greedy chaining loop of `_find_path_to_player` (npc.py lines 1711-1728):
walk the sorted candidates, accept one when the segment from the chain end
to it is unobstructed, append the player the moment the chain end sees the
player, and stop once `max_points = 5` waypoints are accepted.  The
length-cap test runs after the append-player test. -/
def chainPath (obstructed : Vec2 → Vec2 → Bool) (endPos : Vec2) :
    List Vec2 → Vec2 → List Vec2 → List Vec2
  | [], _, acc => acc
  | c :: rest, current, acc =>
    if obstructed current c then chainPath obstructed endPos rest current acc
    else
      let acc2 := acc ++ [c]
      if ¬ obstructed c endPos then acc2 ++ [endPos]
      else if 5 ≤ acc2.length then acc2
      else chainPath obstructed endPos rest c acc2

/-- Method `_find_path_to_player` (npc.py lines 1645-1741): a clear direct
segment yields the single-waypoint plan `[end_pos]`; otherwise the ten best
sampled candidates (`potential_points[:10]`, sorted by distance to the
player; the random sampling and sorting are handed in as the list `cands`)
are greedily chained, with the direct plan `[end_pos]` as fallback when
nothing chains.  The 30 percent teleport roll taken in the fallback case
does not change the produced waypoint list. -/
def find_path_to_player (obstructed : Vec2 → Vec2 → Bool) (startPos endPos : Vec2)
    (cands : List Vec2) : List Vec2 :=
  if ¬ obstructed startPos endPos then [endPos]
  else
    let chained := chainPath obstructed endPos (cands.take 10) startPos []
    if chained = [] then [endPos] else chained

/-- Path-plan and behavior fragment of the NPC state used when the player
teleports. -/
structure PathState where
  pathPoints : List Vec2
  currentIdx : ℕ
  bstate : BState
deriving DecidableEq, Repr

/-- Handler `_on_player_teleported` (npc.py lines 1900-1913): always discard
the in-flight path plan first; then, on a roll below 0.2, self-teleport
(returning early, so the behavior state is untouched there), else reset the
behavior to wander.  The returned flag records whether the self-teleport
fired. -/
def on_player_teleported (s : PathState) (roll : ℚ) : PathState × Bool :=
  let cleared : PathState := { s with pathPoints := [], currentIdx := 0 }
  if roll < 0.2 then (cleared, true)
  else ({ cleared with bstate := .wander }, false)

/-- Concrete obstruction oracle for the path-cap analysis: every segment to
the player position (100, 0) except the one from (5, 0) is blocked, and all
other segments are free. -/
def capOracle (a b : Vec2) : Bool :=
  if b = ⟨100, 0⟩ then decide (a ≠ ⟨5, 0⟩) else false

/-- Concrete sorted candidate list for the path-cap analysis. -/
def capCands : List Vec2 := [⟨1, 0⟩, ⟨2, 0⟩, ⟨3, 0⟩, ⟨4, 0⟩, ⟨5, 0⟩]

end NpcQ

namespace NpcR

noncomputable section

open Classical

/-- First component of `ROOM_SIZE = (20, 10, 4)`. -/
def halfW : ℝ := 20

/-- Second component of `ROOM_SIZE`. -/
def halfL : ℝ := 10

/-- Constant `NPC_SPEED = 1.5` (npc.py line 28). -/
def NPC_SPEED : ℝ := 1.5

/-- Constant `NPC_RADIUS = NPC_SIZE.x / 2 = 0.9` (npc.py lines 26-27). -/
def NPC_RADIUS : ℝ := 0.9

/-- Real-valued 3D vector mirroring the panda3d `Vec3`. -/
structure Vec3R where
  x : ℝ
  y : ℝ
  z : ℝ

/-- Componentwise difference of two vectors. -/
def sub (a b : Vec3R) : Vec3R := ⟨a.x - b.x, a.y - b.y, a.z - b.z⟩

/-- Componentwise sum of two vectors. -/
def add (a b : Vec3R) : Vec3R := ⟨a.x + b.x, a.y + b.y, a.z + b.z⟩

/-- Scalar multiple of a vector. -/
def smul (r : ℝ) (v : Vec3R) : Vec3R := ⟨r * v.x, r * v.y, r * v.z⟩

/-- Euclidean length, panda3d `Vec3.length()`. -/
def vlen (v : Vec3R) : ℝ := Real.sqrt (v.x ^ 2 + v.y ^ 2 + v.z ^ 2)

/-- Squared length, panda3d `Vec3.length_squared()`. -/
def sqLen (v : Vec3R) : ℝ := v.x ^ 2 + v.y ^ 2 + v.z ^ 2

/-- Panda3D `Vec3.normalize()` on a nonzero vector followed by no rescaling:
division of every component by the length. -/
def normalize3 (v : Vec3R) : Vec3R := smul (1 / vlen v) v

/-- Python `int()` truncation toward zero on a real. -/
def pyIntR (r : ℝ) : ℤ := if 0 ≤ r then ⌊r⌋ else ⌈r⌉

/-- Python runtime error arising inside `_is_path_obstructed`. -/
inductive PyErr where
  | nameErrorCollisionHandlerQueue : PyErr
deriving DecidableEq, Repr

/-- Method `_is_path_obstructed` (npc.py lines 1605-1643).  Endpoints closer
than 0.001 return False immediately.  On every other input the code
normalizes the direction, builds a `CollisionSegment` 0.1 above floor level
and a `CollisionNode` for it (engine-object constructions, lines 1614-1628),
and then evaluates `CollisionHandlerQueue()` on line 1629.  That name is
never imported in npc.py (the `panda3d.core` import list on lines 5-11 does
not contain it and no other binding introduces it), so the call raises a
`NameError` before any traversal or boolean result is reached. -/
def is_path_obstructed (startPos endPos : Vec3R) : Except PyErr Bool :=
  let distance := vlen (sub endPos startPos)
  if distance < 0.001 then .ok false
  else .error .nameErrorCollisionHandlerQueue

/-- Static box footprint: world position and x/y scale of an entity whose
name contains "box", as read by `_inside_any_box` (npc.py lines 1931-1944). -/
structure BoxR where
  cx : ℝ
  cy : ℝ
  sx : ℝ
  sy : ℝ

/-- Method `_inside_any_box` (npc.py lines 1916-1951) without its cache
layer (the `_box_check_cache` only short-circuits recomputation of this
same predicate for 1 s; the underlying test per box is containment in the
footprint inflated by the agent radius). -/
def inside_any_box (boxes : List BoxR) (x y : ℝ) : Prop :=
  ∃ b ∈ boxes,
    b.cx - (b.sx / 2 + NPC_RADIUS) ≤ x ∧ x ≤ b.cx + (b.sx / 2 + NPC_RADIUS)
      ∧ b.cy - (b.sy / 2 + NPC_RADIUS) ≤ y ∧ y ≤ b.cy + (b.sy / 2 + NPC_RADIUS)

/-- The eight candidate angles `range(0, 360, 45)` of
`_choose_new_direction`, in degrees. -/
def angles : List ℝ := [0, 45, 90, 135, 180, 225, 270, 315]

/-- Python `math.radians`. -/
def radians (deg : ℝ) : ℝ := deg * (Real.pi / 180)

/-- Unit direction at `ang` degrees (npc.py lines 1455-1460). -/
def dirOf (ang : ℝ) : Vec3R := ⟨Real.cos (radians ang), Real.sin (radians ang), 0⟩

/-- Whether a candidate direction survives the three rejection tests of
`_choose_new_direction` (npc.py lines 1462-1478): the test position two
agent radii ahead must be strictly inside the 70 percent bounds (the code
rejects on `>=`), must not be inside any box, and its grid cell must not be
in the obstacle memory. -/
def dirAccepted (pos : Vec3R) (boxes : List BoxR) (mem : List (ℤ × ℤ)) (ang : ℝ) : Prop :=
  let testPos := add pos (smul (NPC_RADIUS * 2) (dirOf ang))
  ¬ (halfW * 0.7 ≤ |testPos.x| ∨ halfL * 0.7 ≤ |testPos.y|)
    ∧ ¬ inside_any_box boxes testPos.x testPos.y
    ∧ (pyIntR testPos.x, pyIntR testPos.y) ∉ mem

/-- Repulsion cost of a test position against the position history
(npc.py lines 1480-1485): history points within 2.0 units contribute
`10 / (distance + 0.1)`. -/
def dirCost (history : List Vec3R) (testPos : Vec3R) : ℝ :=
  (history.map fun h =>
    if vlen (sub h testPos) < 2.0 then 10 / (vlen (sub h testPos) + 0.1) else 0).sum

/-- The direction-scoring loop of `_choose_new_direction` (npc.py lines
1452-1492): accumulate the surviving `(direction, cost)` pairs in angle
order and track the best pair (a strictly smaller cost replaces it, so ties
keep the earliest; the first survivor always replaces the initial infinite
best cost, modelled by the `none` accumulator). -/
def scanDirs (pos : Vec3R) (boxes : List BoxR) (mem : List (ℤ × ℤ))
    (history : List Vec3R) :
    List ℝ → List (Vec3R × ℝ) × Option (Vec3R × ℝ) →
      List (Vec3R × ℝ) × Option (Vec3R × ℝ)
  | [], st => st
  | ang :: rest, (poss, best) =>
    if dirAccepted pos boxes mem ang then
      let dir := dirOf ang
      let cost := dirCost history (add pos (smul (NPC_RADIUS * 2) dir))
      let best2 : Vec3R × ℝ :=
        match best with
        | none => (dir, cost)
        | some (bd, bc) => if cost < bc then (dir, cost) else (bd, bc)
      scanDirs pos boxes mem history rest (poss ++ [(dir, cost)], some best2)
    else scanDirs pos boxes mem history rest (poss, best)

/-- Outcome of `_choose_new_direction`: either the teleport recovery fires
or a new velocity is chosen.  (Every non-teleport exit also re-arms the
walk timer from `NPC_WALK_INTERVAL` scaled by the behavior state, npc.py
lines 1523-1533, which does not affect the chosen velocity.) -/
inductive ChooseOut where
  | teleport : ChooseOut
  | vel (v : Vec3R) : ChooseOut

/-- Method `_choose_new_direction` (npc.py lines 1439-1533).  Oracles:
`teleRoll` and `explRoll` stand for the two `random.random()` draws,
`explIdx` selects the `random.choice` survivor, and `randAng` is the
`random.uniform(0, 360)` degree draw of the fully random fallback.  When no
direction survives: teleport on `teleRoll < 0.3`, else head for the room
center - the vector `Vec3(0,0,0) - current_pos`, normalized in 3D and
scaled by `NPC_SPEED` - unless its squared length is at most 0.001, in
which case a fully random planar direction is taken.  When survivors exist:
on `explRoll < 0.2` a uniformly chosen survivor, else the best-cost
survivor (that branch of the match is never `none` when survivors exist). -/
def choose_new_direction (pos : Vec3R) (boxes : List BoxR) (mem : List (ℤ × ℤ))
    (history : List Vec3R) (teleRoll explRoll : ℝ) (explIdx : ℕ) (randAng : ℝ) :
    ChooseOut :=
  let scanned := scanDirs pos boxes mem history angles ([], none)
  if scanned.1 = [] then
    if teleRoll < 0.3 then .teleport
    else
      let toCenter := sub ⟨0, 0, 0⟩ pos
      if 0.001 < sqLen toCenter then .vel (smul NPC_SPEED (normalize3 toCenter))
      else
        .vel ⟨NPC_SPEED * Real.cos (radians randAng),
              NPC_SPEED * Real.sin (radians randAng), 0⟩
  else
    if explRoll < 0.2 then
      .vel (smul NPC_SPEED (scanned.1.getD (explIdx % scanned.1.length) (⟨0, 0, 0⟩, 0)).1)
    else
      match scanned.2 with
      | some (bd, _) => .vel (smul NPC_SPEED bd)
      | none => .vel ⟨0, 0, 0⟩

/-- A box footprint covering the whole room, used to reject every candidate
direction in the concrete wander-fallback scenarios. -/
def bigBox : BoxR := ⟨0, 0, 200, 200⟩

/-- Method `_is_stuck` (npc.py lines 1884-1898): with fewer than 3 recorded
positions the agent is never stuck; otherwise it is stuck when the summed
distances from the current position to the last three recorded positions
stay below `NPC_RADIUS * 0.8`. -/
def isStuck (history : List Vec3R) (pos : Vec3R) : Prop :=
  if history.length < 3 then False
  else ((history.reverse.take 3).map fun h => vlen (sub pos h)).sum < NPC_RADIUS * 0.8

/-- History recording at the end of `_step` (npc.py lines 1586-1590): the
new position is appended only when the displacement exceeds 0.5, and the
oldest entry is popped beyond `_max_history = 15`. -/
def recordHistory (history : List Vec3R) (prevPos newPos : Vec3R) : List Vec3R :=
  if 0.5 < vlen (sub prevPos newPos) then
    let h2 := history ++ [newPos]
    if 15 < h2.length then h2.drop 1 else h2
  else history

/-- Real-valued clamp `min(max(v, lo), hi)`. -/
def pyClampR (lo hi v : ℝ) : ℝ := min (max v lo) hi

/-- Position committed by `_do_teleport`, clamped to the 60 percent
bounds (npc.py lines 1852-1866). -/
def do_teleport_posR (t : Vec3R) : Vec3R :=
  ⟨pyClampR (-(halfW * 0.6)) (halfW * 0.6) t.x,
   pyClampR (-(halfL * 0.6)) (halfL * 0.6) t.y, t.z⟩

/-- Stuck-detection fragment of the NPC state. -/
structure StuckState where
  pos : Vec3R
  history : List Vec3R
  blockedTimer : ℝ
  teleported : Bool

/-- Adversarial per-tick inputs to the stuck-detection fragment: the
position reached by the behavior update of the tick, the velocity in force
when the blocked check runs, the tick duration, and the teleport target
sampled by `_teleport_away` in case the blocked timer fires. -/
structure TickIn where
  newPos : Vec3R
  vel : Vec3R
  dt : ℝ
  teleTarget : Vec3R

/-- One tick of the blocked/stuck machinery (npc.py lines 831-838): the
behavior update moves the agent to `inp.newPos` and `_step` records the
position; then, if the velocity is nonzero and the agent is stuck, the
blocked timer accumulates `dt` and, past 2.0 seconds, `_teleport_away`
commits a teleport (`_do_teleport` zeroes the velocity and clears the
position history, and `update` resets the blocked timer); in every other
case the blocked timer is reset to 0. -/
def stuckTick (s : StuckState) (inp : TickIn) : StuckState :=
  let hist2 := recordHistory s.history s.pos inp.newPos
  if 0 < sqLen inp.vel ∧ isStuck hist2 inp.newPos then
    if 2.0 < s.blockedTimer + inp.dt then
      { pos := do_teleport_posR inp.teleTarget, history := [], blockedTimer := 0,
        teleported := true }
    else
      { pos := inp.newPos, history := hist2, blockedTimer := s.blockedTimer + inp.dt,
        teleported := false }
  else
    { pos := inp.newPos, history := hist2, blockedTimer := 0, teleported := false }

/-- Number of ticks of a run that record a new history entry (displacement
greater than 0.5). -/
def appendCount (s : StuckState) : List TickIn → ℕ
  | [] => 0
  | inp :: rest =>
      (if 0.5 < vlen (sub s.pos inp.newPos) then 1 else 0)
        + appendCount (stuckTick s inp) rest

/-- Whether some tick of a run fires the blocked-timer teleport. -/
def anyTeleportRun (s : StuckState) : List TickIn → Prop
  | [] => False
  | inp :: rest =>
      (stuckTick s inp).teleported = true ∨ anyTeleportRun (stuckTick s inp) rest

end

end NpcR

namespace NpcQ

theorem pyClamp_le {lo hi v : ℚ} : pyClamp lo hi v ≤ hi :=
  min_le_right _ _

theorem le_pyClamp {lo hi v : ℚ} (h : lo ≤ hi) : lo ≤ pyClamp lo hi v :=
  le_min (le_max_right v lo) h

theorem abs_pyClamp_le {a v : ℚ} (ha : 0 ≤ a) : |pyClamp (-a) a v| ≤ a :=
  abs_le.2 ⟨le_pyClamp (by linarith), pyClamp_le⟩

theorem enforce_position_in_room_bounds (p : Vec2) :
    inSafeBounds (enforce_position_in_room p) :=
  ⟨abs_pyClamp_le (by norm_num [halfW]), abs_pyClamp_le (by norm_num [halfL])⟩

theorem do_teleport_bounds (s : MoveState) (target : Vec2) :
    inSafeBounds (do_teleport s target).pos :=
  ⟨abs_pyClamp_le (by norm_num [halfW]), abs_pyClamp_le (by norm_num [halfL])⟩

theorem stepMove_bounds (s : MoveState) (dt : ℚ) (hit : Bool) :
    inSafeBounds (stepMove s dt hit).pos :=
  enforce_position_in_room_bounds _

theorem enforce_room_boundaries_bounds (s : MoveState) :
    inSafeBounds ((enforce_room_boundaries s).1).pos := by
  unfold enforce_room_boundaries
  by_cases h : halfW * 0.45 < |s.pos.x| ∨ halfL * 0.45 < |s.pos.y|
  · simp only [h, if_pos]
    constructor
    · exact le_trans (abs_pyClamp_le (by norm_num [halfW])) (by norm_num [halfW])
    · exact le_trans (abs_pyClamp_le (by norm_num [halfL])) (by norm_num [halfL])
  · simp only [h, if_neg, not_false_iff]
    push_neg at h
    exact ⟨le_trans h.1 (by norm_num [halfW]), le_trans h.2 (by norm_num [halfL])⟩

theorem applyMut_preserves (s : MoveState) (m : PosMut) (hs : inSafeBounds s.pos) :
    inSafeBounds (applyMut s m).pos := by
  cases m with
  | boundary => exact enforce_room_boundaries_bounds s
  | setVel v => exact hs
  | move dt hit => exact stepMove_bounds s dt hit
  | teleport target => exact do_teleport_bounds s target

theorem foldl_applyMut_preserves (muts : List PosMut) (s : MoveState)
    (hs : inSafeBounds s.pos) : inSafeBounds (muts.foldl applyMut s).pos := by
  induction muts generalizing s with
  | nil => exact hs
  | cons m rest ih => exact ih (applyMut s m) (applyMut_preserves s m hs)

theorem do_teleport_pos_bounds (target : Vec2) : inSafeBounds (do_teleport_pos target) :=
  ⟨abs_pyClamp_le (by norm_num [halfW]), abs_pyClamp_le (by norm_num [halfL])⟩

theorem do_teleport_pos_of_inSafeBounds {p : Vec2} (h : inSafeBounds p) :
    do_teleport_pos p = p := by
  obtain ⟨hx, hy⟩ := h
  rw [abs_le] at hx hy
  unfold do_teleport_pos pyClamp
  cases p with
  | mk x y =>
      simp only at hx hy
      simp [max_eq_left hx.1, min_eq_left hx.2, max_eq_left hy.1, min_eq_left hy.2]

theorem teleport_scan_cons (insideBox : Vec2 → Bool) (player c : Vec2) (rest : List Vec2)
    (acc : Option Vec2 × ℚ) :
    teleport_scan insideBox player (c :: rest) acc =
      if insideBox c then teleport_scan insideBox player rest acc
      else if dist2 c player < NPC_SAFE_DISTANCE ^ 2 then
        teleport_scan insideBox player rest acc
      else if (NPC_SAFE_DISTANCE * 3) ^ 2 < dist2 c player then
        (if acc.2 < dist2 c player then (some c, dist2 c player) else acc)
      else
        teleport_scan insideBox player rest
          (if acc.2 < dist2 c player then (some c, dist2 c player) else acc) := rfl

theorem teleport_examined_cons (insideBox : Vec2 → Bool) (player c : Vec2)
    (rest : List Vec2) (acc : Option Vec2 × ℚ) :
    teleport_examined insideBox player (c :: rest) acc =
      if insideBox c then c :: teleport_examined insideBox player rest acc
      else if dist2 c player < NPC_SAFE_DISTANCE ^ 2 then
        c :: teleport_examined insideBox player rest acc
      else if (NPC_SAFE_DISTANCE * 3) ^ 2 < dist2 c player then [c]
      else c :: teleport_examined insideBox player rest
          (if acc.2 < dist2 c player then (some c, dist2 c player) else acc) := rfl

theorem teleport_scan_mono (insideBox : Vec2 → Bool) (player : Vec2) :
    ∀ (cands : List Vec2) (acc : Option Vec2 × ℚ),
      acc.2 ≤ (teleport_scan insideBox player cands acc).2 := by
  intro cands
  induction cands with
  | nil => intro acc; exact le_refl _
  | cons c rest ih =>
      intro acc
      rw [teleport_scan_cons]
      by_cases h1 : insideBox c = true
      · rw [if_pos h1]; exact ih acc
      · rw [if_neg h1]
        by_cases h2 : dist2 c player < NPC_SAFE_DISTANCE ^ 2
        · rw [if_pos h2]; exact ih acc
        · rw [if_neg h2]
          have hacc2 :
              acc.2 ≤ (if acc.2 < dist2 c player then (some c, dist2 c player) else acc).2 := by
            by_cases h3 : acc.2 < dist2 c player
            · rw [if_pos h3]; exact le_of_lt h3
            · rw [if_neg h3]
          by_cases h4 : (NPC_SAFE_DISTANCE * 3) ^ 2 < dist2 c player
          · rw [if_pos h4]; exact hacc2
          · rw [if_neg h4]; exact le_trans hacc2 (ih _)

theorem teleport_scan_some (insideBox : Vec2 → Bool) (player : Vec2) :
    ∀ (cands : List Vec2) (acc : Option Vec2 × ℚ) (q : Vec2), acc.1 = some q →
      ∃ p, (teleport_scan insideBox player cands acc).1 = some p := by
  intro cands
  induction cands with
  | nil => intro acc q h; exact ⟨q, h⟩
  | cons c rest ih =>
      intro acc q h
      rw [teleport_scan_cons]
      by_cases h1 : insideBox c = true
      · rw [if_pos h1]; exact ih acc q h
      · rw [if_neg h1]
        by_cases h2 : dist2 c player < NPC_SAFE_DISTANCE ^ 2
        · rw [if_pos h2]; exact ih acc q h
        · rw [if_neg h2]
          by_cases h4 : (NPC_SAFE_DISTANCE * 3) ^ 2 < dist2 c player
          · rw [if_pos h4]
            by_cases h3 : acc.2 < dist2 c player
            · rw [if_pos h3]; exact ⟨c, rfl⟩
            · rw [if_neg h3]; exact ⟨q, h⟩
          · rw [if_neg h4]
            by_cases h3 : acc.2 < dist2 c player
            · rw [if_pos h3]; exact ih _ c rfl
            · rw [if_neg h3]; exact ih acc q h

theorem teleport_scan_some_of_valid (insideBox : Vec2 → Bool) (player : Vec2) :
    ∀ (cands : List Vec2) (acc : Option Vec2 × ℚ),
      (acc.1 = none → acc.2 = 0) →
      (∃ c ∈ cands, validCandidate insideBox player c) →
      ∃ p, (teleport_scan insideBox player cands acc).1 = some p := by
  intro cands
  induction cands with
  | nil =>
      intro acc hz hex
      obtain ⟨c, hc, _⟩ := hex
      simp at hc
  | cons c0 rest ih =>
      intro acc hz hex
      rw [teleport_scan_cons]
      by_cases h1 : insideBox c0 = true
      · rw [if_pos h1]
        refine ih acc hz ?_
        obtain ⟨c, hc, hcv⟩ := hex
        rcases List.mem_cons.mp hc with h | h
        · exact absurd hcv.1 (by subst h; simp [h1])
        · exact ⟨c, h, hcv⟩
      · rw [if_neg h1]
        by_cases h2 : dist2 c0 player < NPC_SAFE_DISTANCE ^ 2
        · rw [if_pos h2]
          refine ih acc hz ?_
          obtain ⟨c, hc, hcv⟩ := hex
          rcases List.mem_cons.mp hc with h | h
          · subst h; exact absurd h2 (not_lt.mpr hcv.2)
          · exact ⟨c, h, hcv⟩
        · rw [if_neg h2]
          have hs : ∃ p,
              (if acc.2 < dist2 c0 player then (some c0, dist2 c0 player) else acc).1
                = some p := by
            by_cases h3 : acc.2 < dist2 c0 player
            · rw [if_pos h3]; exact ⟨c0, rfl⟩
            · rw [if_neg h3]
              cases ho : acc.1 with
              | some q => exact ⟨q, rfl⟩
              | none =>
                  exfalso
                  apply h3
                  have h0 : acc.2 = 0 := hz ho
                  rw [h0]
                  calc (0 : ℚ) < NPC_SAFE_DISTANCE ^ 2 := by norm_num [NPC_SAFE_DISTANCE]
                    _ ≤ dist2 c0 player := le_of_not_lt h2
          by_cases h4 : (NPC_SAFE_DISTANCE * 3) ^ 2 < dist2 c0 player
          · rw [if_pos h4]; exact hs
          · rw [if_neg h4]
            obtain ⟨p, hp⟩ := hs
            exact teleport_scan_some insideBox player rest _ p hp

theorem teleport_scan_inv (insideBox : Vec2 → Bool) (player : Vec2) (R : Vec2 → Prop) :
    ∀ (cands : List Vec2) (acc : Option Vec2 × ℚ),
      TeleAccInv player R acc →
      (∀ c ∈ cands, validCandidate insideBox player c → R c) →
      TeleAccInv player R (teleport_scan insideBox player cands acc) := by
  intro cands
  induction cands with
  | nil => intro acc hacc _; exact hacc
  | cons c rest ih =>
      intro acc hacc hR
      have hRrest : ∀ x ∈ rest, validCandidate insideBox player x → R x :=
        fun x hx => hR x (List.mem_cons_of_mem _ hx)
      rw [teleport_scan_cons]
      by_cases h1 : insideBox c = true
      · rw [if_pos h1]; exact ih acc hacc hRrest
      · rw [if_neg h1]
        by_cases h2 : dist2 c player < NPC_SAFE_DISTANCE ^ 2
        · rw [if_pos h2]; exact ih acc hacc hRrest
        · rw [if_neg h2]
          have hvalid : validCandidate insideBox player c :=
            ⟨Bool.eq_false_iff.mpr h1, le_of_not_lt h2⟩
          have hacc2 : TeleAccInv player R
              (if acc.2 < dist2 c player then (some c, dist2 c player) else acc) := by
            by_cases h3 : acc.2 < dist2 c player
            · rw [if_pos h3]
              refine ⟨fun hnone => by simp at hnone, ?_⟩
              intro q hq
              have hq2 : c = q := Option.some.inj hq
              subst hq2
              exact ⟨rfl, le_of_not_lt h2, hR c (List.mem_cons_self _ _) hvalid⟩
            · rw [if_neg h3]; exact hacc
          by_cases h4 : (NPC_SAFE_DISTANCE * 3) ^ 2 < dist2 c player
          · rw [if_pos h4]; exact hacc2
          · rw [if_neg h4]; exact ih _ hacc2 hRrest

theorem teleport_scan_max (insideBox : Vec2 → Bool) (player : Vec2) :
    ∀ (cands : List Vec2) (acc : Option Vec2 × ℚ),
      ∀ c ∈ teleport_examined insideBox player cands acc,
        validCandidate insideBox player c →
          dist2 c player ≤ (teleport_scan insideBox player cands acc).2 := by
  intro cands
  induction cands with
  | nil =>
      intro acc c hc
      simp [teleport_examined] at hc
  | cons c0 rest ih =>
      intro acc c hc hcv
      rw [teleport_scan_cons]
      rw [teleport_examined_cons] at hc
      by_cases h1 : insideBox c0 = true
      · rw [if_pos h1] at hc ⊢
        rcases List.mem_cons.mp hc with h | h
        · exact absurd hcv.1 (by subst h; simp [h1])
        · exact ih acc c h hcv
      · rw [if_neg h1] at hc ⊢
        by_cases h2 : dist2 c0 player < NPC_SAFE_DISTANCE ^ 2
        · rw [if_pos h2] at hc ⊢
          rcases List.mem_cons.mp hc with h | h
          · subst h; exact absurd h2 (not_lt.mpr hcv.2)
          · exact ih acc c h hcv
        · rw [if_neg h2] at hc ⊢
          by_cases h4 : (NPC_SAFE_DISTANCE * 3) ^ 2 < dist2 c0 player
          · rw [if_pos h4] at hc ⊢
            simp at hc
            subst hc
            by_cases h3 : acc.2 < dist2 c player
            · rw [if_pos h3]
            · rw [if_neg h3]; exact le_of_not_lt h3
          · rw [if_neg h4] at hc ⊢
            rcases List.mem_cons.mp hc with h | h
            · subst h
              refine le_trans ?_ (teleport_scan_mono insideBox player rest _)
              by_cases h3 : acc.2 < dist2 c player
              · rw [if_pos h3]
              · rw [if_neg h3]; exact le_of_not_lt h3
            · exact ih _ c h hcv

theorem chainPath_length_le (obstructed : Vec2 → Vec2 → Bool) (endPos : Vec2) :
    ∀ (cands : List Vec2) (current : Vec2) (acc : List Vec2),
      acc.length ≤ 4 → (chainPath obstructed endPos cands current acc).length ≤ 6 := by
  intro cands
  induction cands with
  | nil =>
      intro current acc h
      unfold chainPath
      omega
  | cons c rest ih =>
      intro current acc h
      unfold chainPath
      by_cases h1 : obstructed current c = true
      · simp only [h1, if_true]
        exact ih current acc h
      · simp only [h1, if_false, Bool.false_eq_true]
        by_cases h2 : obstructed c endPos = true
        · simp only [h2, not_true, if_false, Bool.not_true]
          by_cases h3 : 5 ≤ (acc ++ [c]).length
          · simp only [h3, if_true, if_pos]
            simp at h3 ⊢
            omega
          · simp only [h3, if_false, if_neg, not_false_iff]
            refine ih c (acc ++ [c]) ?_
            simp at h3 ⊢
            omega
        · simp only [h2, if_pos, Bool.not_eq_true]
          simp
          omega

theorem update_awareness_mem {a dt : ℚ} (w : Bool) (h0 : 0 ≤ a) (h1 : a ≤ 1)
    (hdt : 0 ≤ dt) :
    0 ≤ update_awareness a dt w ∧ update_awareness a dt w ≤ 1 := by
  have h3 : 0 ≤ dt / NPC_AWARENESS_TIME :=
    div_nonneg hdt (by norm_num [NPC_AWARENESS_TIME])
  have h15 : 0 ≤ dt / (NPC_AWARENESS_TIME * 0.5) :=
    div_nonneg hdt (by norm_num [NPC_AWARENESS_TIME])
  cases w with
  | true =>
      unfold update_awareness
      refine ⟨le_min (by norm_num) (by linarith), ?_⟩
      exact le_trans (min_le_left _ _) (by norm_num)
  | false =>
      unfold update_awareness
      refine ⟨le_max_of_le_left (by norm_num), ?_⟩
      exact max_le (by norm_num) (by linarith)

end NpcQ

namespace NpcR

theorem vlen_sub_self (p : Vec3R) : vlen (sub p p) = 0 := by
  unfold vlen sub
  simp

theorem isStuck_of_short (history : List Vec3R) (pos : Vec3R)
    (h : history.length < 3) : ¬ isStuck history pos := by
  unfold isStuck
  rw [if_pos h]
  exact not_false

theorem bigBox_rejects (pos : Vec3R) (mem : List (ℤ × ℤ)) (hx : |pos.x| ≤ 50)
    (hy : |pos.y| ≤ 50) (ang : ℝ) : ¬ dirAccepted pos [bigBox] mem ang := by
  intro h
  simp only [dirAccepted] at h
  obtain ⟨h1, h2, h3⟩ := h
  apply h2
  have hc1 := Real.neg_one_le_cos (radians ang)
  have hc2 := Real.cos_le_one (radians ang)
  have hs1 := Real.neg_one_le_sin (radians ang)
  have hs2 := Real.sin_le_one (radians ang)
  rw [abs_le] at hx hy
  refine ⟨bigBox, by simp, ?_, ?_, ?_, ?_⟩ <;>
    simp only [bigBox, add, smul, dirOf, NPC_RADIUS] <;> nlinarith

theorem scanDirs_all_rejected (pos : Vec3R) (boxes : List BoxR) (mem : List (ℤ × ℤ))
    (history : List Vec3R) :
    ∀ (l : List ℝ) (st : List (Vec3R × ℝ) × Option (Vec3R × ℝ)),
      (∀ a ∈ l, ¬ dirAccepted pos boxes mem a) →
      scanDirs pos boxes mem history l st = st := by
  intro l
  induction l with
  | nil => intro st _; rfl
  | cons a rest ih =>
      intro st hrej
      obtain ⟨poss, best⟩ := st
      unfold scanDirs
      rw [if_neg (hrej a (List.mem_cons_self _ _))]
      exact ih (poss, best) fun b hb => hrej b (List.mem_cons_of_mem _ hb)

theorem recordHistory_length_le (history : List Vec3R) (p q : Vec3R) :
    (recordHistory history p q).length
      ≤ history.length + (if 0.5 < vlen (sub p q) then 1 else 0) := by
  unfold recordHistory
  by_cases h : (0.5 : ℝ) < vlen (sub p q)
  · rw [if_pos h, if_pos h]
    by_cases h2 : 15 < (history ++ [q]).length
    · rw [if_pos h2]
      simp only [List.length_drop, List.length_append, List.length_cons, List.length_nil]
      omega
    · rw [if_neg h2]
      simp only [List.length_append, List.length_cons, List.length_nil]
      omega
  · rw [if_neg h, if_neg h]
    omega

theorem stuck_run_no_teleport :
    ∀ (ticks : List TickIn) (s : StuckState),
      s.history.length + appendCount s ticks < 3 → ¬ anyTeleportRun s ticks := by
  intro ticks
  induction ticks with
  | nil =>
      intro s _ h
      exact h
  | cons inp rest ih =>
      intro s hlt
      have hceq : appendCount s (inp :: rest)
          = (if (0.5 : ℝ) < vlen (sub s.pos inp.newPos) then 1 else 0)
            + appendCount (stuckTick s inp) rest := rfl
      rw [hceq] at hlt
      have hhist := recordHistory_length_le s.history s.pos inp.newPos
      have hlen3 : (recordHistory s.history s.pos inp.newPos).length < 3 := by
        by_cases hd : (0.5 : ℝ) < vlen (sub s.pos inp.newPos)
        · rw [if_pos hd] at hlt hhist; omega
        · rw [if_neg hd] at hlt hhist; omega
      have hns := isStuck_of_short _ inp.newPos hlen3
      have htick : stuckTick s inp
          = { pos := inp.newPos, history := recordHistory s.history s.pos inp.newPos,
              blockedTimer := 0, teleported := false } := by
        simp only [stuckTick]
        rw [if_neg fun hc => hns hc.2]
      intro hrun
      rcases hrun with hfire | hrest
      · rw [htick] at hfire
        simp at hfire
      · refine ih (stuckTick s inp) ?_ hrest
        have hh : (stuckTick s inp).history = recordHistory s.history s.pos inp.newPos := by
          rw [htick]
        rw [hh]
        by_cases hd : (0.5 : ℝ) < vlen (sub s.pos inp.newPos)
        · rw [if_pos hd] at hlt hhist; omega
        · rw [if_neg hd] at hlt hhist; omega

end NpcR

/-- C1.  Containment invariant: for every sequence of `update(dt)` calls and
arbitrary (adversarial) velocity values, after each `update(dt)` returns the
agent's position satisfies `|x| <= 0.6 * halfW` and `|y| <= 0.6 * halfL`;
and every position mutation performed during a tick (boundary clamp,
movement step, teleport commit) re-establishes this bound on its own. -/
theorem C1_containment_invariant :
    (∀ (s : NpcQ.MoveState) (muts : List NpcQ.PosMut),
        NpcQ.inSafeBounds (NpcQ.update_tick s muts).pos)
    ∧ (∀ s : NpcQ.MoveState,
        NpcQ.inSafeBounds ((NpcQ.enforce_room_boundaries s).1).pos)
    ∧ (∀ (s : NpcQ.MoveState) (dt : ℚ) (hit : Bool),
        NpcQ.inSafeBounds (NpcQ.stepMove s dt hit).pos)
    ∧ (∀ (s : NpcQ.MoveState) (target : NpcQ.Vec2),
        NpcQ.inSafeBounds (NpcQ.do_teleport s target).pos) := by
  refine ⟨fun s muts => ?_, NpcQ.enforce_room_boundaries_bounds,
    NpcQ.stepMove_bounds, NpcQ.do_teleport_bounds⟩
  exact NpcQ.foldl_applyMut_preserves muts _ (NpcQ.enforce_room_boundaries_bounds s)

/-- C2 counterexample: in Stalk at distance 1.0 (below `NPC_SAFE_DISTANCE`)
with `observedLevel = 0.9`, the transition evaluation does not end in
Wander (the flee test is a second `if` and fires afterward, ending in
Flee), so the next state is not independent of `observedLevel`. -/
theorem C2_counterexample :
    (NpcQ.check_state_transition NpcQ.BState.stalk 0 1 0.9 0.1).1 ≠ NpcQ.BState.wander := by
  norm_num [NpcQ.check_state_transition, NpcQ.NPC_SAFE_DISTANCE,
    NpcQ.NPC_DETECTION_RADIUS, NpcQ.NPC_FLEE_THRESHOLD]
  decide

/-- C2 as amended: in Stalk at distance `d < NPC_SAFE_DISTANCE` the next
state is Wander exactly when `observedLevel <= 0.8`; when
`observedLevel > 0.8` the subsequent flee test (distance is then also below
`NPC_FLEE_THRESHOLD`) overrides the fresh wander state and the tick ends in
Flee. -/
theorem C2_stalk_close_range (stateTimer d awareness dt : ℚ)
    (hd : d < NpcQ.NPC_SAFE_DISTANCE) :
    (NpcQ.check_state_transition NpcQ.BState.stalk stateTimer d awareness dt).1
      = if 0.8 < awareness then NpcQ.BState.flee else NpcQ.BState.wander := by
  have h8 : d < NpcQ.NPC_FLEE_THRESHOLD := by
    have : NpcQ.NPC_SAFE_DISTANCE < NpcQ.NPC_FLEE_THRESHOLD := by
      norm_num [NpcQ.NPC_SAFE_DISTANCE, NpcQ.NPC_FLEE_THRESHOLD]
    linarith
  unfold NpcQ.check_state_transition
  by_cases ha : (0.8 : ℚ) < awareness
  · simp [ha, h8]
  · simp [ha, hd]

/-- C2 witness: at distance 1 with awareness 0.9 the amended statement
yields Flee. -/
theorem C2_stalk_close_range_witness :
    (NpcQ.check_state_transition NpcQ.BState.stalk 0 1 0.9 0.1).1 = NpcQ.BState.flee := by
  have h := C2_stalk_close_range 0 1 0.9 0.1 (by norm_num [NpcQ.NPC_SAFE_DISTANCE])
  rw [h]
  norm_num

/-- C5.  Observed-level bounds: starting from any awareness in [0, 1], after
any sequence of (being-watched, dt) samples with nonnegative dt the
awareness remains within [0, 1]; each step is the clamped
increment/decrement of `_update_awareness`. -/
theorem C5_awareness_bounds (a : ℚ) (seq : List (Bool × ℚ))
    (h0 : 0 ≤ a) (h1 : a ≤ 1) (hdt : ∀ p ∈ seq, 0 ≤ p.2) :
    0 ≤ NpcQ.run_awareness a seq ∧ NpcQ.run_awareness a seq ≤ 1 := by
  induction seq generalizing a with
  | nil => exact ⟨h0, h1⟩
  | cons p rest ih =>
      obtain ⟨w, dt⟩ := p
      have hp : (0 : ℚ) ≤ dt := hdt (w, dt) (List.mem_cons_self _ _)
      have hrest : ∀ q ∈ rest, (0 : ℚ) ≤ q.2 := fun q hq => hdt q (List.mem_cons_of_mem _ hq)
      have hstep := NpcQ.update_awareness_mem w h0 h1 hp
      exact ih (NpcQ.update_awareness a dt w) hstep.1 hstep.2 hrest

/-- C5 witness: one watched tick then one unwatched tick from awareness 0
stays in [0, 1]. -/
theorem C5_awareness_bounds_witness :
    0 ≤ NpcQ.run_awareness 0 [(true, 1), (false, 2)]
      ∧ NpcQ.run_awareness 0 [(true, 1), (false, 2)] ≤ 1 :=
  C5_awareness_bounds 0 [(true, 1), (false, 2)] (by norm_num) (by norm_num) (by decide)

/-- C6.  Obstacle-memory decay: a failed move inserts its grid cell with
lifetime `OBSTACLE_MEMORY_LIFETIME = 5`; every tick decrements each stored
lifetime by dt and drops entries reaching `<= 0`; and a record inserted
with lifetime 5 then ticked five times with dt = 1 is absent. -/
theorem C6_obstacle_memory_decay :
    (∀ (mem : NpcQ.ObsMem) (cell : ℤ × ℤ),
        NpcQ.insertObstacle mem cell cell = some NpcQ.OBSTACLE_MEMORY_LIFETIME
          ∧ NpcQ.OBSTACLE_MEMORY_LIFETIME = 5)
    ∧ (∀ (mem : NpcQ.ObsMem) (dt : ℚ) (cell : ℤ × ℤ) (l : ℚ), mem cell = some l →
        (0 < l - dt → NpcQ.update_obstacle_memory mem dt cell = some (l - dt))
          ∧ (l - dt ≤ 0 → NpcQ.update_obstacle_memory mem dt cell = none))
    ∧ (∀ (mem : NpcQ.ObsMem) (cell : ℤ × ℤ),
        (fun m => NpcQ.update_obstacle_memory m 1)^[5]
            (NpcQ.insertObstacle mem cell) cell = none) := by
  refine ⟨fun mem cell => ⟨Function.update_same _ _ _, rfl⟩, ?_, ?_⟩
  · intro mem dt cell l h
    constructor
    · intro hpos
      simp only [NpcQ.update_obstacle_memory, h]
      rw [if_neg (by linarith)]
    · intro hneg
      simp only [NpcQ.update_obstacle_memory, h]
      rw [if_pos hneg]
  · intro mem cell
    have h0 : NpcQ.insertObstacle mem cell cell = some 5 := Function.update_same _ _ _
    simp only [Function.iterate_succ_apply, Function.iterate_zero_apply]
    simp [NpcQ.update_obstacle_memory, h0]
    norm_num

/-- C6 witness: the concrete five-tick run on an initially empty memory. -/
theorem C6_obstacle_memory_decay_witness :
    NpcQ.update_obstacle_memory (NpcQ.insertObstacle (fun _ => none) (0, 0)) 1 (0, 0)
        = some 4
      ∧ (fun m => NpcQ.update_obstacle_memory m 1)^[5]
          (NpcQ.insertObstacle (fun _ => none) (0, 0)) (0, 0) = none := by
  constructor
  · have h := (C6_obstacle_memory_decay.2.1 (NpcQ.insertObstacle (fun _ => none) (0, 0))
      1 (0, 0) 5 (C6_obstacle_memory_decay.1 (fun _ => none) (0, 0)).1).1 (by norm_num)
    norm_num at h
    exact h
  · exact C6_obstacle_memory_decay.2.2 (fun _ => none) (0, 0)

/-- C8 counterexample: with the concrete obstruction oracle `capOracle` and
candidate list `capCands`, the greedy chain accepts five waypoints and only
then finds the player reachable, appends it, and returns six waypoints, so
the produced plan is not capped at 5. -/
theorem C8_counterexample :
    ¬ ((NpcQ.find_path_to_player NpcQ.capOracle ⟨0, 0⟩ ⟨100, 0⟩ NpcQ.capCands).length ≤ 5) := by
  decide

/-- C8 as amended: every waypoint list produced by `_find_path_to_player`
contains at most 6 waypoints: at most 5 accepted sampled waypoints, plus the
target waypoint, which is appended before the 5-waypoint cap is checked and
can therefore be a sixth entry. -/
theorem C8_path_length_cap (obstructed : NpcQ.Vec2 → NpcQ.Vec2 → Bool)
    (startPos endPos : NpcQ.Vec2) (cands : List NpcQ.Vec2) :
    (NpcQ.find_path_to_player obstructed startPos endPos cands).length ≤ 6 := by
  unfold NpcQ.find_path_to_player
  by_cases h : obstructed startPos endPos = true
  · simp only [h, not_true, if_false, Bool.not_true, Bool.false_eq_true]
    by_cases h2 : NpcQ.chainPath obstructed endPos (cands.take 10) startPos [] = []
    · simp only [h2, if_true, if_pos, List.length_singleton]
      omega
    · simp only [h2, if_false, if_neg, not_false_iff]
      exact NpcQ.chainPath_length_le obstructed endPos (cands.take 10) startPos []
        (by norm_num)
  · simp [h]

/-- C9.  Target-teleport notification handling: the in-flight path plan is
always discarded (waypoints emptied, index reset); on a roll below 0.2 the
agent self-teleports with its behavior state untouched, otherwise the
behavior state is reset to Wander and no self-teleport happens. -/
theorem C9_on_player_teleported (s : NpcQ.PathState) (roll : ℚ) :
    ((NpcQ.on_player_teleported s roll).1.pathPoints = []
        ∧ (NpcQ.on_player_teleported s roll).1.currentIdx = 0)
    ∧ (roll < 0.2 → (NpcQ.on_player_teleported s roll).2 = true
        ∧ (NpcQ.on_player_teleported s roll).1.bstate = s.bstate)
    ∧ (0.2 ≤ roll → (NpcQ.on_player_teleported s roll).2 = false
        ∧ (NpcQ.on_player_teleported s roll).1.bstate = NpcQ.BState.wander) := by
  unfold NpcQ.on_player_teleported
  by_cases h : roll < (0.2 : ℚ) <;> simp [h]

/-- C9 witness: a roll of 0.1 self-teleports, a roll of 0.5 resets the
behavior to Wander. -/
theorem C9_on_player_teleported_witness :
    (NpcQ.on_player_teleported ⟨[⟨1, 2⟩], 3, NpcQ.BState.stalk⟩ 0.1).2 = true
      ∧ (NpcQ.on_player_teleported ⟨[⟨1, 2⟩], 3, NpcQ.BState.stalk⟩ 0.5).1.bstate
          = NpcQ.BState.wander :=
  ⟨((C9_on_player_teleported ⟨[⟨1, 2⟩], 3, NpcQ.BState.stalk⟩ 0.1).2.1 (by norm_num)).1,
   ((C9_on_player_teleported ⟨[⟨1, 2⟩], 3, NpcQ.BState.stalk⟩ 0.5).2.2 (by norm_num)).2⟩

/-- C4.  Teleport safety: whenever some sampled candidate is valid (the
candidates are sampled inside the 0.6-scaled bounds, and a valid one is not
inside any obstacle and at squared planar distance at least
`NPC_SAFE_DISTANCE ** 2` from the target), the committed teleport position
is inside the 0.6-scaled bounds, at squared distance at least
`NPC_SAFE_DISTANCE ** 2` from the target, and maximizes squared distance
among the valid candidates examined; moreover the scan stops early as soon
as an accepted candidate exceeds `(3 * NPC_SAFE_DISTANCE) ** 2`, ignoring
the remaining attempts. -/
theorem C4_teleport_safety :
    (∀ (insideBox : NpcQ.Vec2 → Bool) (player fallback : NpcQ.Vec2)
        (cands : List NpcQ.Vec2),
      (∀ c ∈ cands, NpcQ.inSafeBounds c) →
      (∃ c ∈ cands, NpcQ.validCandidate insideBox player c) →
      NpcQ.inSafeBounds (NpcQ.teleport_away insideBox player cands fallback)
        ∧ NpcQ.NPC_SAFE_DISTANCE ^ 2
            ≤ NpcQ.dist2 (NpcQ.teleport_away insideBox player cands fallback) player
        ∧ ∀ c ∈ NpcQ.teleport_examined insideBox player cands (none, 0),
            NpcQ.validCandidate insideBox player c →
              NpcQ.dist2 c player
                ≤ NpcQ.dist2 (NpcQ.teleport_away insideBox player cands fallback) player)
    ∧ (∀ (insideBox : NpcQ.Vec2 → Bool) (player c : NpcQ.Vec2) (rest : List NpcQ.Vec2)
        (acc : Option NpcQ.Vec2 × ℚ),
      insideBox c = false →
      (NpcQ.NPC_SAFE_DISTANCE * 3) ^ 2 < NpcQ.dist2 c player →
      NpcQ.teleport_scan insideBox player (c :: rest) acc
        = if acc.2 < NpcQ.dist2 c player then (some c, NpcQ.dist2 c player) else acc) := by
  constructor
  · intro insideBox player fallback cands hb hex
    obtain ⟨p, hp⟩ := NpcQ.teleport_scan_some_of_valid insideBox player cands (none, 0)
      (fun _ => rfl) hex
    have hinv := NpcQ.teleport_scan_inv insideBox player (fun q => q ∈ cands) cands (none, 0)
      ⟨fun _ => rfl, fun q hq => absurd hq (by simp)⟩ (fun x hx _ => hx)
    obtain ⟨hd2, hsafe, hmem⟩ := hinv.2 p hp
    have hpb : NpcQ.inSafeBounds p := hb p hmem
    have hta : NpcQ.teleport_away insideBox player cands fallback = NpcQ.do_teleport_pos p := by
      unfold NpcQ.teleport_away
      rcases hres : NpcQ.teleport_scan insideBox player cands (none, 0) with ⟨o, d⟩
      rw [hres] at hp
      obtain rfl : o = some p := hp
      rfl
    have hta2 : NpcQ.teleport_away insideBox player cands fallback = p := by
      rw [hta, NpcQ.do_teleport_pos_of_inSafeBounds hpb]
    refine ⟨?_, ?_, ?_⟩
    · rw [hta]; exact NpcQ.do_teleport_pos_bounds p
    · rw [hta2, ← hd2]; exact hsafe
    · intro c hc hcv
      rw [hta2, ← hd2]
      exact NpcQ.teleport_scan_max insideBox player cands (none, 0) c hc hcv
  · intro insideBox player c rest acc hbox hbig
    rw [NpcQ.teleport_scan_cons, if_neg (by simp [hbox]), if_neg ?_, if_pos hbig]
    have hsb : NpcQ.NPC_SAFE_DISTANCE ^ 2 ≤ (NpcQ.NPC_SAFE_DISTANCE * 3) ^ 2 := by
      norm_num [NpcQ.NPC_SAFE_DISTANCE]
    exact not_lt.mpr (le_trans hsb (le_of_lt hbig))

/-- C4 witness: a single valid candidate at (3, 0) against a player at the
origin and no obstacles is committed at squared distance 9, at least
`NPC_SAFE_DISTANCE ** 2`. -/
theorem C4_teleport_safety_witness :
    NpcQ.NPC_SAFE_DISTANCE ^ 2
        ≤ NpcQ.dist2
            (NpcQ.teleport_away (fun _ => false) ⟨0, 0⟩ [⟨3, 0⟩] ⟨0, 0⟩) ⟨0, 0⟩
      ∧ NpcQ.inSafeBounds (NpcQ.teleport_away (fun _ => false) ⟨0, 0⟩ [⟨3, 0⟩] ⟨0, 0⟩) := by
  have h := C4_teleport_safety.1 (fun _ => false) ⟨0, 0⟩ ⟨0, 0⟩ [⟨3, 0⟩]
    (by
      intro c hc
      simp at hc
      subst hc
      constructor <;> norm_num [NpcQ.halfW, NpcQ.halfL])
    ⟨⟨3, 0⟩, by simp, rfl, by norm_num [NpcQ.dist2, NpcQ.NPC_SAFE_DISTANCE]⟩
  exact ⟨h.2.1, h.1⟩

/-- C3 fails on the code: `_is_path_obstructed` cannot return a boolean for
any pair of points at distance 0.001 or more, because the function body
evaluates the name `CollisionHandlerQueue`, which npc.py never imports; the
call raises `NameError` before the segment test runs.  Evaluating the
embedded function at from = (0,0,0), to = (1,0,0) produces that error. -/
theorem C3_occlusion_name_error :
    NpcR.is_path_obstructed ⟨0, 0, 0⟩ ⟨1, 0, 0⟩
      = Except.error NpcR.PyErr.nameErrorCollisionHandlerQueue := by
  have hv : NpcR.vlen (NpcR.sub ⟨1, 0, 0⟩ ⟨0, 0, 0⟩) = 1 := by
    unfold NpcR.vlen NpcR.sub
    norm_num
  unfold NpcR.is_path_obstructed
  rw [hv]
  norm_num

/-- C7 counterexample: at position (0.01, 0, 0) - not the room center -
with every candidate direction rejected (a room-covering box), a failed 30
percent teleport roll and a random-angle draw of 0 degrees, the chosen
velocity is (1.5, 0, 0), while the center-seeking velocity the claim
promises would be (-1.5, 0, 0): the code takes its fully random branch
whenever the squared distance to the center is at most 0.001, not only
exactly at the center. -/
theorem C7_counterexample :
    NpcR.choose_new_direction ⟨0.01, 0, 0⟩ [NpcR.bigBox] [] [] 0.5 0.5 0 0
        = NpcR.ChooseOut.vel ⟨1.5, 0, 0⟩
      ∧ (⟨0.01, 0, 0⟩ : NpcR.Vec3R) ≠ ⟨0, 0, 0⟩
      ∧ NpcR.smul NpcR.NPC_SPEED (NpcR.normalize3 (NpcR.sub ⟨0, 0, 0⟩ ⟨0.01, 0, 0⟩))
          = ⟨-1.5, 0, 0⟩ := by
  refine ⟨?_, ?_, ?_⟩
  · have hscan := NpcR.scanDirs_all_rejected ⟨0.01, 0, 0⟩ [NpcR.bigBox] [] []
      NpcR.angles ([], none)
      (fun a _ => NpcR.bigBox_rejects ⟨0.01, 0, 0⟩ [] (by rw [abs_le]; norm_num)
        (by rw [abs_le]; norm_num) a)
    unfold NpcR.choose_new_direction
    simp only [hscan]
    norm_num [NpcR.sqLen, NpcR.sub, NpcR.radians, NpcR.NPC_SPEED]
  · intro h
    have hx : (0.01 : ℝ) = 0 := congrArg NpcR.Vec3R.x h
    norm_num at hx
  · have hv : NpcR.vlen (NpcR.sub ⟨0, 0, 0⟩ ⟨0.01, 0, 0⟩) = 0.01 := by
      unfold NpcR.vlen NpcR.sub
      rw [show ((0 : ℝ) - 0.01) ^ 2 + ((0 : ℝ) - 0) ^ 2 + ((0 : ℝ) - 0) ^ 2
        = 0.01 ^ 2 by norm_num]
      exact Real.sqrt_sq (by norm_num)
    unfold NpcR.normalize3
    rw [hv]
    unfold NpcR.smul NpcR.sub NpcR.NPC_SPEED
    simp only [NpcR.Vec3R.mk.injEq]
    norm_num

/-- C7 as amended: when all 8 candidate directions are rejected and the 30
percent teleport roll does not fire, the chosen velocity is `NPC_SPEED`
times the 3D-normalized vector from the agent's position toward the origin
whenever the squared distance to the origin exceeds 0.001; when that squared
distance is at most 0.001 (the agent is essentially at the center, though
not necessarily exactly there), a uniformly random planar direction is
chosen instead. -/
theorem C7_wander_fallback (pos : NpcR.Vec3R) (boxes : List NpcR.BoxR)
    (mem : List (ℤ × ℤ)) (history : List NpcR.Vec3R) (teleRoll explRoll : ℝ)
    (explIdx : ℕ) (randAng : ℝ)
    (hrej : ∀ a ∈ NpcR.angles, ¬ NpcR.dirAccepted pos boxes mem a)
    (hroll : 0.3 ≤ teleRoll) :
    (0.001 < NpcR.sqLen (NpcR.sub ⟨0, 0, 0⟩ pos) →
        NpcR.choose_new_direction pos boxes mem history teleRoll explRoll explIdx randAng
          = NpcR.ChooseOut.vel (NpcR.smul NpcR.NPC_SPEED
              (NpcR.normalize3 (NpcR.sub ⟨0, 0, 0⟩ pos))))
    ∧ (NpcR.sqLen (NpcR.sub ⟨0, 0, 0⟩ pos) ≤ 0.001 →
        NpcR.choose_new_direction pos boxes mem history teleRoll explRoll explIdx randAng
          = NpcR.ChooseOut.vel ⟨NpcR.NPC_SPEED * Real.cos (NpcR.radians randAng),
              NpcR.NPC_SPEED * Real.sin (NpcR.radians randAng), 0⟩) := by
  have hscan := NpcR.scanDirs_all_rejected pos boxes mem history NpcR.angles ([], none) hrej
  have hnr : ¬ (teleRoll < 0.3) := not_lt.mpr hroll
  constructor
  · intro hc
    unfold NpcR.choose_new_direction
    simp only [hscan, if_true]
    rw [if_neg hnr, if_pos hc]
  · intro hc
    unfold NpcR.choose_new_direction
    simp only [hscan, if_true]
    rw [if_neg hnr, if_neg (not_lt.mpr hc)]

/-- C7 witness: at (5, 0, 0) with every direction rejected and a failed
teleport roll, the chosen velocity is the center-seeking one. -/
theorem C7_wander_fallback_witness :
    NpcR.choose_new_direction ⟨5, 0, 0⟩ [NpcR.bigBox] [] [] 0.5 0.5 0 0
      = NpcR.ChooseOut.vel (NpcR.smul NpcR.NPC_SPEED
          (NpcR.normalize3 (NpcR.sub ⟨0, 0, 0⟩ ⟨5, 0, 0⟩))) :=
  (C7_wander_fallback ⟨5, 0, 0⟩ [NpcR.bigBox] [] [] 0.5 0.5 0 0
      (fun a _ => NpcR.bigBox_rejects ⟨5, 0, 0⟩ [] (by rw [abs_le]; norm_num)
        (by rw [abs_le]; norm_num) a)
      (by norm_num)).1
    (by norm_num [NpcR.sqLen, NpcR.sub])

/-- C10.  Stuck-detection guard: `_is_stuck` is False whenever fewer than 3
positions are recorded; the blocked timer is reset to 0 on every tick whose
velocity is zero or that is not stuck; and from a post-teleport state
(history cleared by `_do_teleport`) no blocked-timer teleport can fire
during any run in which fewer than 3 ticks record a new position (a
position is recorded only after a displacement greater than 0.5). -/
theorem C10_stuck_guard :
    (∀ (history : List NpcR.Vec3R) (pos : NpcR.Vec3R),
        history.length < 3 → ¬ NpcR.isStuck history pos)
    ∧ (∀ (s : NpcR.StuckState) (inp : NpcR.TickIn),
        NpcR.sqLen inp.vel = 0
            ∨ ¬ NpcR.isStuck (NpcR.recordHistory s.history s.pos inp.newPos) inp.newPos →
          (NpcR.stuckTick s inp).blockedTimer = 0)
    ∧ (∀ (ticks : List NpcR.TickIn) (s : NpcR.StuckState), s.history = [] →
        NpcR.appendCount s ticks < 3 → ¬ NpcR.anyTeleportRun s ticks) := by
  refine ⟨fun history pos h => NpcR.isStuck_of_short history pos h, ?_, ?_⟩
  · intro s inp hcond
    have hneg : ¬ (0 < NpcR.sqLen inp.vel
        ∧ NpcR.isStuck (NpcR.recordHistory s.history s.pos inp.newPos) inp.newPos) := by
      rcases hcond with h0 | hns
      · intro hc
        rw [h0] at hc
        exact lt_irrefl 0 hc.1
      · exact fun hc => hns hc.2
    simp only [NpcR.stuckTick]
    rw [if_neg hneg]
  · intro ticks s hnil hc
    refine NpcR.stuck_run_no_teleport ticks s ?_
    rw [hnil]
    simpa using hc

/-- C10 witness: an empty history is never stuck; a zero-velocity tick
resets the blocked timer; and a single post-teleport tick without recorded
displacement fires no teleport. -/
theorem C10_stuck_guard_witness :
    ¬ NpcR.isStuck [] ⟨0, 0, 0⟩
      ∧ (NpcR.stuckTick ⟨⟨0, 0, 0⟩, [], 5, false⟩
            ⟨⟨0, 0, 0⟩, ⟨0, 0, 0⟩, 1, ⟨0, 0, 0⟩⟩).blockedTimer = 0
      ∧ ¬ NpcR.anyTeleportRun ⟨⟨0, 0, 0⟩, [], 0, false⟩
            [⟨⟨0, 0, 0⟩, ⟨1, 0, 0⟩, 1, ⟨2, 2, 0⟩⟩] := by
  refine ⟨C10_stuck_guard.1 [] ⟨0, 0, 0⟩ (by norm_num),
    C10_stuck_guard.2.1 ⟨⟨0, 0, 0⟩, [], 5, false⟩ ⟨⟨0, 0, 0⟩, ⟨0, 0, 0⟩, 1, ⟨0, 0, 0⟩⟩
      (Or.inl ?_),
    C10_stuck_guard.2.2 [⟨⟨0, 0, 0⟩, ⟨1, 0, 0⟩, 1, ⟨2, 2, 0⟩⟩]
      ⟨⟨0, 0, 0⟩, [], 0, false⟩ rfl ?_⟩
  · show NpcR.sqLen ⟨0, 0, 0⟩ = 0
    norm_num [NpcR.sqLen]
  · show NpcR.appendCount _ _ < 3
    simp only [NpcR.appendCount]
    rw [if_neg ?_]
    · norm_num
    · rw [NpcR.vlen_sub_self]
      norm_num
